import Mathlib

/-!
Shallow embedding of the `dome-be` relay server (a WebSocket code-sharing room
relay) and proofs about its specification claims.

Source files embedded:
* `src/roomManager.js`   — `RoomManager` (room map, join/leave/broadcast/setCode)
* `src/rateLimiter.js`   — `RateLimiter` (fixed-window per-client throttle)
* `src/connectionManager.js` — `ConnectionManager` (global connection counter)
* `src/config.js`        — `CONFIG` shape and `validateConfig`
* `src/utils.js`         — `validateMessage`
* `src/index.js`         — `extractRoomId`, `handleMessage`, `sendMessage`,
  `broadcastPresence` and the connection handler.

Modelling conventions: JS numbers that hold integral counts, sizes and
timestamps are modelled as `Int` (`Date.now()`, `parseInt` results); byte sizes
of strings use UTF-8 byte size, matching `Buffer.byteLength(s, 'utf8')`.
JS `Map` is modelled as an association list with insertion-order-preserving
`setKey` (replace in place or append) and `eraseKey`; JS `Set` as a list with
membership-guarded insertion.  Effectful calls (`ws.send`, `ws.close`) are
modelled as an explicit list of emitted `Effect`s.
-/

/-- JSON values, as produced by `JSON.parse`, restricted to the fragment the
protocol uses (arrays are omitted: no handler field access distinguishes an
array from an object without the accessed field, so they behave like an object
with no matching fields). -/
inductive JValue where
  | jnull : JValue
  | jbool : Bool → JValue
  | jnum : Int → JValue
  | jstr : String → JValue
  | jobj : List (String × JValue) → JValue

/-- JS truthiness of a parsed JSON value (`!v` is `true` iff `v` is falsy). -/
def truthy : JValue → Bool
  | .jnull => false
  | .jbool b => b
  | .jnum n => !(n == 0)
  | .jstr s => !(s == "")
  | .jobj _ => true

/-- Whether `typeof v === "object"` holds in JS for a parsed JSON value
(`null` has typeof `"object"`). -/
def isObjectType : JValue → Bool
  | .jnull => true
  | .jobj _ => true
  | _ => false

/-- Whether `typeof v === "string"` holds in JS for a parsed JSON value. -/
def isStringVal : JValue → Bool
  | .jstr _ => true
  | _ => false

/-- Property access `v.k` on a parsed JSON value; `none` models `undefined`. -/
def getField : JValue → String → Option JValue
  | .jobj fields, k => (fields.find? (fun e => e.1 == k)).map (fun e => e.2)
  | _, _ => none

/-- Hexadecimal digit for `JSON.stringify` control-character escapes. -/
def hexDigit (n : Nat) : Char :=
  if n < 10 then Char.ofNat (48 + n) else Char.ofNat (87 + n)

/-- Escape of one character in a JSON string literal, as `JSON.stringify`
produces it. -/
def escapeJsonChar (c : Char) : String :=
  if c = '"' then "\\\""
  else if c = '\\' then "\\\\"
  else if c = '\n' then "\\n"
  else if c = '\r' then "\\r"
  else if c = '\t' then "\\t"
  else if c = Char.ofNat 8 then "\\b"
  else if c = Char.ofNat 12 then "\\f"
  else if c.toNat < 32 then
    "\\u00" ++ String.singleton (hexDigit (c.toNat / 16)) ++ String.singleton (hexDigit (c.toNat % 16))
  else String.singleton c

/-- A JSON string literal, as `JSON.stringify` produces it. -/
def jsonQuote (s : String) : String :=
  "\"" ++ String.join (s.data.map escapeJsonChar) ++ "\""

mutual

/-- `JSON.stringify` on the modelled JSON fragment. -/
def stringify : JValue → String
  | .jnull => "null"
  | .jbool true => "true"
  | .jbool false => "false"
  | .jnum n => toString n
  | .jstr s => jsonQuote s
  | .jobj fields => "\x7b" ++ stringifyFields fields ++ "\x7d"

/-- Comma-separated `"key":value` items of a JSON object body. -/
def stringifyFields : List (String × JValue) → String
  | [] => ""
  | [(k, v)] => jsonQuote k ++ ":" ++ stringify v
  | (k, v) :: e :: rest => jsonQuote k ++ ":" ++ stringify v ++ "," ++ stringifyFields (e :: rest)

end

/-- A WebSocket connection handle.  `cid` is object identity (JS reference
equality on distinct sockets), `roomId` is the property the connection handler
assigns (`ws.roomId = roomId`), `addr` models `ws._socket.remoteAddress`
(empty string for an absent/falsy address), and `readyState` is the transport
state (`1` = OPEN). -/
structure Conn where
  cid : Nat
  roomId : String
  addr : String
  readyState : Nat
deriving DecidableEq

/-- An observable outbound action of the engine: a successful `ws.send` or a
`ws.close` with a close code and reason. -/
inductive Effect where
  | sent : Conn → String → Effect
  | closed : Conn → Nat → String → Effect
deriving DecidableEq

/-- A room, as stored in `RoomManager.rooms` (`roomManager.js`): a `Set` of
clients (modelled as a duplicate-free list in insertion order), the shared
code buffer, and the creation timestamp. -/
structure Room where
  clients : List Conn
  code : String
  createdAt : Int
deriving DecidableEq

/-- The `RoomManager.rooms` map (`Map<string, Room>`). -/
def RoomsMap : Type := List (String × Room)

instance : DecidableEq RoomsMap := by
  unfold RoomsMap
  infer_instance

/-- First-match lookup in an association list (`Map.get`). -/
def lookupKey {α : Type} : List (String × α) → String → Option α
  | [], _ => none
  | e :: rest, k => if e.1 = k then some e.2 else lookupKey rest k

/-- `Map.set`: replace the value at the key in place, or append a new entry. -/
def setKey {α : Type} : List (String × α) → String → α → List (String × α)
  | [], k, v => [(k, v)]
  | e :: rest, k, v => if e.1 = k then (k, v) :: rest else e :: setKey rest k v

/-- `Map.delete`: remove the entry with the key. -/
def eraseKey {α : Type} (m : List (String × α)) (k : String) : List (String × α) :=
  m.filter (fun e => !(e.1 == k))

/-- `Map.has`. -/
def containsKey {α : Type} (m : List (String × α)) (k : String) : Bool :=
  (lookupKey m k).isSome

/-- `Set.add` on the client set: a no-op when the element is present,
otherwise appended. -/
def addClient (clients : List Conn) (ws : Conn) : List Conn :=
  if ws ∈ clients then clients else clients ++ [ws]

/-- `RoomManager.createRoom` (`roomManager.js`).  The `nanoid(6)` generated
identifier and `Date.now()` are external inputs, passed as parameters. -/
def createRoom (st : RoomsMap) (generatedId : String) (now : Int) : String × RoomsMap :=
  (generatedId, setKey st generatedId ⟨[], "", now⟩)

/-- `RoomManager.joinRoom` (`roomManager.js`): reject a falsy room id, create
the room if absent (empty client set, empty code), add the client, return the
room. -/
def joinRoom (st : RoomsMap) (roomId : String) (ws : Conn) (now : Int) :
    Except String (RoomsMap × Room) :=
  if roomId = "" then .error "Invalid room ID"
  else
    let st1 := if containsKey st roomId then st else setKey st roomId ⟨[], "", now⟩
    match lookupKey st1 roomId with
    | none => .error "Failed to create or retrieve room"
    | some room =>
      let room1 : Room := { room with clients := addClient room.clients ws }
      .ok (setKey st1 roomId room1, room1)

/-- `RoomManager.leaveRoom` (`roomManager.js`): no-op on a falsy id or absent
room; remove the client from the set; delete the room when the set becomes
empty. -/
def leaveRoom (st : RoomsMap) (roomId : String) (ws : Conn) : RoomsMap :=
  if roomId = "" then st
  else
    match lookupKey st roomId with
    | none => st
    | some room =>
      let room1 : Room := { room with clients := room.clients.filter (fun c => !(c == ws)) }
      if room1.clients = [] then eraseKey st roomId else setKey st roomId room1

/-- `RoomManager.broadcast` (`roomManager.js`): deliver the message string to
every member of the room except the sender whose `readyState` is `1`; no-op on
a falsy room id, falsy message, or absent room.  Delivery is returned as the
list of `sent` effects, in member order. -/
def broadcast (st : RoomsMap) (roomId : String) (sender : Option Conn) (message : String) :
    List Effect :=
  if roomId = "" then []
  else if message = "" then []
  else
    match lookupKey st roomId with
    | none => []
    | some room =>
      (room.clients.filter (fun c => !(some c == sender) && c.readyState == 1)).map
        (fun c => Effect.sent c message)

/-- `RoomManager.getPresence` (`roomManager.js`). -/
def getPresence (st : RoomsMap) (roomId : String) : Nat :=
  if roomId = "" then 0
  else
    match lookupKey st roomId with
    | none => 0
    | some room => room.clients.length

/-- `RoomManager.setCode` (`roomManager.js`): replace the room code wholesale;
no-op on a falsy id or absent room (the `typeof code === "string"` guard is
discharged by the type of `code`). -/
def setCode (st : RoomsMap) (roomId : String) (code : String) : RoomsMap :=
  if roomId = "" then st
  else
    match lookupKey st roomId with
    | none => st
    | some room => setKey st roomId { room with code := code }

/-- `RoomManager.getCode` (`roomManager.js`). -/
def getCode (st : RoomsMap) (roomId : String) : String :=
  if roomId = "" then ""
  else
    match lookupKey st roomId with
    | none => ""
    | some room => room.code

/-- `RoomManager.getStats` result shape (`roomManager.js`). -/
structure RoomStats where
  totalRooms : Nat
  totalClients : Nat
deriving DecidableEq

/-- `RoomManager.getStats` (`roomManager.js`). -/
def getStats (st : RoomsMap) : RoomStats :=
  ⟨st.length, (st.map (fun e => e.2.clients.length)).sum⟩

/-- One per-client record of the rate limiter (`rateLimiter.js`). -/
structure RateRecord where
  count : Int
  resetAt : Int
deriving DecidableEq

/-- The `RateLimiter` object state (`rateLimiter.js`): constructor arguments
`maxMessages` and `windowMs`, and the `clients` map. -/
structure RateLimiter where
  maxMessages : Int
  windowMs : Int
  clients : List (String × RateRecord)
deriving DecidableEq

/-- `RateLimiter.getClientId` (`rateLimiter.js`): `{roomId}:{remoteAddress}`
for a truthy `ws.roomId` (with `'unknown'` for a falsy address), else
`'unknown'`. -/
def RateLimiter.getClientId (ws : Conn) : String :=
  if ws.roomId = "" then "unknown"
  else ws.roomId ++ ":" ++ (if ws.addr = "" then "unknown" else ws.addr)

/-- `RateLimiter.check` (`rateLimiter.js`): fixed-window counting.  `now` is
the `Date.now()` reading at the call.  Returns the boolean result together
with the updated limiter state. -/
def RateLimiter.check (self : RateLimiter) (ws : Conn) (now : Int) : Bool × RateLimiter :=
  match lookupKey self.clients (RateLimiter.getClientId ws) with
  | none =>
    (true,
      { self with
          clients := setKey self.clients (RateLimiter.getClientId ws) ⟨1, now + self.windowMs⟩ })
  | some record =>
    if now > record.resetAt then
      (true,
        { self with
            clients := setKey self.clients (RateLimiter.getClientId ws) ⟨1, now + self.windowMs⟩ })
    else if record.count ≥ self.maxMessages then
      (false, self)
    else
      (true,
        { self with
            clients :=
              setKey self.clients (RateLimiter.getClientId ws) ⟨record.count + 1, record.resetAt⟩ })

/-- `RateLimiter.cleanup` (`rateLimiter.js`): drop records whose window has
passed. -/
def RateLimiter.cleanup (self : RateLimiter) (now : Int) : RateLimiter :=
  { self with clients := self.clients.filter (fun e => !(now > e.2.resetAt : Bool)) }

/-- The `ConnectionManager` object state (`connectionManager.js`). -/
structure ConnectionManager where
  maxTotalConnections : Int
  totalConnections : Int
deriving DecidableEq

/-- `ConnectionManager.canAcceptConnection` (`connectionManager.js`). -/
def ConnectionManager.canAcceptConnection (self : ConnectionManager) : Bool :=
  self.totalConnections < self.maxTotalConnections

/-- `ConnectionManager.addConnection` (`connectionManager.js`). -/
def ConnectionManager.addConnection (self : ConnectionManager) : ConnectionManager :=
  { self with totalConnections := self.totalConnections + 1 }

/-- `ConnectionManager.removeConnection` (`connectionManager.js`): decrement,
guarded against going below zero. -/
def ConnectionManager.removeConnection (self : ConnectionManager) : ConnectionManager :=
  if self.totalConnections > 0 then { self with totalConnections := self.totalConnections - 1 }
  else self

/-- The `CONFIG` object shape (`config.js`): every numeric field is a
`parseInt` of an environment variable (so an arbitrary integer).  `HOST` and
the regex `ROOM_ID_PATTERN` are embedded elsewhere (`isRoomIdChar`). -/
structure Config where
  MAX_MESSAGE_SIZE : Int
  MAX_CODE_SIZE : Int
  RATE_LIMIT_MESSAGES : Int
  RATE_LIMIT_WINDOW_MS : Int
  MAX_CONNECTIONS_PER_ROOM : Int
  MAX_TOTAL_CONNECTIONS : Int
  ROOM_ID_MIN_LENGTH : Int
  ROOM_ID_MAX_LENGTH : Int
  PORT : Int
  SHUTDOWN_TIMEOUT_MS : Int
deriving DecidableEq

/-- The default `CONFIG` values of `config.js`. -/
def cfgDefault : Config :=
  ⟨10485760, 5242880, 100, 60000, 50, 1000, 6, 20, 3001, 10000⟩

/-- `validateConfig` (`config.js`): the accumulated `errors` array; the
function throws iff this list is nonempty. -/
def validateConfig (cfg : Config) : List String :=
  (if cfg.MAX_MESSAGE_SIZE ≤ 0 ∨ cfg.MAX_MESSAGE_SIZE > 100 * 1024 * 1024 then
    ["MAX_MESSAGE_SIZE must be between 1 and 100MB"] else []) ++
  (if cfg.MAX_CODE_SIZE ≤ 0 ∨ cfg.MAX_CODE_SIZE > 50 * 1024 * 1024 then
    ["MAX_CODE_SIZE must be between 1 and 50MB"] else []) ++
  (if cfg.RATE_LIMIT_MESSAGES ≤ 0 ∨ cfg.RATE_LIMIT_MESSAGES > 10000 then
    ["RATE_LIMIT_MESSAGES must be between 1 and 10000"] else []) ++
  (if cfg.MAX_CONNECTIONS_PER_ROOM ≤ 0 ∨ cfg.MAX_CONNECTIONS_PER_ROOM > 1000 then
    ["MAX_CONNECTIONS_PER_ROOM must be between 1 and 1000"] else []) ++
  (if cfg.PORT < 1 ∨ cfg.PORT > 65535 then
    ["PORT must be between 1 and 65535"] else [])

/-- `index.js` lines 10–15: the process comes up iff `validateConfig` did not
throw (otherwise `process.exit(1)`). -/
def serverStarts (cfg : Config) : Bool :=
  (validateConfig cfg).isEmpty

/-- Modelled from the spec: `src/types.js` (imported by `index.js` as
`MESSAGE_TYPES`) is not in the repository snapshot; §6 of the spec names the
wire message type for buffer updates `CODE_CHANGE`. -/
def MESSAGE_TYPES_CODE_CHANGE : String := "CODE_CHANGE"

/-- Modelled from the spec: the initial-sync wire message type `SYNC_CODE`
(`src/types.js` is absent from the snapshot). -/
def MESSAGE_TYPES_SYNC_CODE : String := "SYNC_CODE"

/-- Modelled from the spec: the membership-change wire message type `PRESENCE`
(`src/types.js` is absent from the snapshot). -/
def MESSAGE_TYPES_PRESENCE : String := "PRESENCE"

/-- `validateMessage` (`utils.js`): the message must be a truthy object with a
truthy string `type` and a truthy object `payload`. -/
def validateMessage (m : JValue) : Bool :=
  (truthy m && isObjectType m) &&
  (match getField m "type" with
   | some t => truthy t && isStringVal t
   | none => false) &&
  (match getField m "payload" with
   | some p => truthy p && isObjectType p
   | none => false)

/-- A character allowed by `CONFIG.ROOM_ID_PATTERN` (`/^[a-zA-Z0-9_-]+$/`). -/
def isRoomIdChar (c : Char) : Bool :=
  c.isAlphanum || c = '_' || c = '-'

/-- The room-id validation of `extractRoomId` (`index.js`): length within the
configured bounds and every character allowed, with at least one character. -/
def validRoomId (cfg : Config) (s : String) : Bool :=
  decide ((s.length : Int) ≥ cfg.ROOM_ID_MIN_LENGTH) &&
  decide ((s.length : Int) ≤ cfg.ROOM_ID_MAX_LENGTH) &&
  (!(s == "") && s.data.all isRoomIdChar)

/-- `url.split("/")` on a character list: split at every slash, keeping empty
parts (JS `String.prototype.split` semantics for a one-character
separator). -/
def splitSlashAux : List Char → List Char → List String
  | [], acc => [String.mk acc.reverse]
  | c :: rest, acc =>
    if c = '/' then String.mk acc.reverse :: splitSlashAux rest []
    else splitSlashAux rest (c :: acc)

/-- `url.split("/")` (`extractRoomId`, `index.js`). -/
def jsSplitSlash (s : String) : List String :=
  splitSlashAux s.data []

/-- `extractRoomId` (`index.js`): the last truthy `/`-separated part of the
URL, validated against the configured length bounds and pattern. -/
def extractRoomId (cfg : Config) (url : String) : Option String :=
  if url = "" then none
  else
    let parts := (jsSplitSlash url).filter (fun s => !(s == ""))
    match parts.getLast? with
    | none => none
    | some roomId =>
      if roomId = "" then none
      else if validRoomId cfg roomId then some roomId
      else none

/-- `sendMessage` (`index.js`): serialize and send only when the socket is
open (`readyState === 1`) and the serialization does not exceed
`MAX_MESSAGE_SIZE`; otherwise emit nothing. -/
def sendMessage (cfg : Config) (ws : Conn) (message : JValue) : List Effect :=
  if ws.readyState = 1 then
    let messageStr := stringify message
    if (messageStr.utf8ByteSize : Int) > cfg.MAX_MESSAGE_SIZE then []
    else [Effect.sent ws messageStr]
  else []

/-- The `SYNC_CODE` envelope sent on join (`index.js` connection handler). -/
def syncCodeEnvelope (code : String) : JValue :=
  .jobj [("type", .jstr MESSAGE_TYPES_SYNC_CODE), ("payload", .jobj [("code", .jstr code)])]

/-- The `PRESENCE` envelope (`broadcastPresence` in `index.js`). -/
def presenceEnvelope (count : Nat) : JValue :=
  .jobj [("type", .jstr MESSAGE_TYPES_PRESENCE), ("payload", .jobj [("count", .jnum (count : Int))])]

/-- The `ERROR` envelope of the oversized-code branch of `handleMessage`
(`index.js`).  `fmtMB` models the JS float formatting of
`CONFIG.MAX_CODE_SIZE / 1024 / 1024` inside the template literal (IEEE-754
division and number-to-string conversion, which this embedding does not
define); it is passed the configured `MAX_CODE_SIZE`. -/
def errorEnvelope (cfg : Config) (fmtMB : Int → String) : JValue :=
  .jobj [("type", .jstr "ERROR"),
         ("payload", .jobj [("message",
           .jstr ("Code size exceeds limit of " ++ fmtMB cfg.MAX_CODE_SIZE ++ "MB"))])]

/-- `broadcastPresence` (`index.js`). -/
def broadcastPresence (st : RoomsMap) (roomId : String) : List Effect :=
  broadcast st roomId none (stringify (presenceEnvelope (getPresence st roomId)))

/-- The inbound raw WebSocket frame of `handleMessage`: the transport hands
the handler a byte buffer, modelled by its byte length together with its
`JSON.parse` result (`none` when parsing throws). -/
structure RawData where
  parsed : Option JValue
  size : Nat

/-- `message.payload?.code` when it is a string (`handleMessage`,
`index.js`); `none` when `payload` or `code` is absent or `code` is not a
string. -/
def payloadCode (m : JValue) : Option String :=
  match getField m "payload" with
  | some p =>
    match getField p "code" with
    | some (.jstr s) => some s
    | _ => none
  | none => none

/-- `message.type === t` for a string literal `t` (`handleMessage`,
`index.js`). -/
def isType (m : JValue) (t : String) : Bool :=
  match getField m "type" with
  | some (.jstr s) => s == t
  | _ => false

/-- `handleMessage` (`index.js`): size check, rate check, JSON decode,
envelope validation, and the `CODE_CHANGE` dispatch.  Returns the updated
rooms map and rate limiter together with the emitted effects. -/
def handleMessage (cfg : Config) (fmtMB : Int → String) (rooms : RoomsMap)
    (rate : RateLimiter) (ws : Conn) (roomId : String) (data : RawData) (now : Int) :
    RoomsMap × RateLimiter × List Effect :=
  if (data.size : Int) > cfg.MAX_MESSAGE_SIZE then
    (rooms, rate, [Effect.closed ws 1009 "Message too large"])
  else if !(RateLimiter.check rate ws now).1 then
    (rooms, (RateLimiter.check rate ws now).2, [Effect.closed ws 1008 "Rate limit exceeded"])
  else
    match data.parsed with
    | none => (rooms, (RateLimiter.check rate ws now).2, [])
    | some message =>
      if !validateMessage message then (rooms, (RateLimiter.check rate ws now).2, [])
      else if isType message MESSAGE_TYPES_CODE_CHANGE then
        match payloadCode message with
        | none => (rooms, (RateLimiter.check rate ws now).2, [])
        | some code =>
          if (code.utf8ByteSize : Int) > cfg.MAX_CODE_SIZE then
            (rooms, (RateLimiter.check rate ws now).2, sendMessage cfg ws (errorEnvelope cfg fmtMB))
          else
            (setCode rooms roomId code, (RateLimiter.check rate ws now).2,
             broadcast (setCode rooms roomId code) roomId (some ws) (stringify message))
      else (rooms, (RateLimiter.check rate ws now).2, [])

/-- The global mutable state touched by the connection handler (`index.js`):
the room registry and the connection counter. -/
structure ServerState where
  rooms : RoomsMap
  conns : ConnectionManager
deriving DecidableEq

/-- The `wss.on("connection")` handler (`index.js`): admission check, room-id
extraction, per-room capacity check, join, initial `SYNC_CODE` send and
`PRESENCE` broadcast. -/
def handleConnection (cfg : Config) (st : ServerState) (ws : Conn) (url : String) (now : Int) :
    ServerState × List Effect :=
  if !st.conns.canAcceptConnection then
    (st, [Effect.closed ws 1008 "Server at capacity"])
  else
    match extractRoomId cfg url with
    | none => (st, [Effect.closed ws 1008 "Invalid room ID"])
    | some roomId =>
      if (getPresence st.rooms roomId : Int) ≥ cfg.MAX_CONNECTIONS_PER_ROOM then
        (st, [Effect.closed ws 1008 "Room at capacity"])
      else
        let ws1 : Conn := { ws with roomId := roomId }
        let conns1 := st.conns.addConnection
        match joinRoom st.rooms roomId ws1 now with
        | .error _ =>
          ({ rooms := st.rooms, conns := conns1.removeConnection },
           [Effect.closed ws1 1011 "Server error"])
        | .ok (rooms1, room) =>
          ({ rooms := rooms1, conns := conns1 },
           sendMessage cfg ws1 (syncCodeEnvelope room.code) ++ broadcastPresence rooms1 roomId)

/-- The `ws.on("close")` handler of a joined connection (`index.js`): leave
the room, release the admission counter, broadcast the new presence. -/
def handleClose (st : ServerState) (ws : Conn) (roomId : String) : ServerState × List Effect :=
  let rooms1 := leaveRoom st.rooms roomId ws
  ({ rooms := rooms1, conns := st.conns.removeConnection }, broadcastPresence rooms1 roomId)

/-! ### Helper lemmas about the map and set primitives -/

theorem lookupKey_setKey {α : Type} (m : List (String × α)) (k : String) (v : α) (q : String) :
    lookupKey (setKey m k v) q = if q = k then some v else lookupKey m q := by
  induction m with
  | nil =>
    by_cases hqk : q = k
    · simp [setKey, lookupKey, hqk]
    · have hkq : ¬ k = q := fun h => hqk h.symm
      simp [setKey, lookupKey, hqk, hkq]
  | cons e rest ih =>
    by_cases hek : e.1 = k
    · by_cases hqk : q = k
      · subst hqk
        simp [setKey, lookupKey, hek]
      · have hkq : ¬ k = q := fun h => hqk h.symm
        have heq : ¬ e.1 = q := fun h => hkq (hek.symm.trans h)
        simp [setKey, lookupKey, hek, hqk, hkq, heq]
    · by_cases heq : e.1 = q
      · have hqk : ¬ q = k := fun h => hek (heq.trans h)
        simp [setKey, lookupKey, hek, heq, hqk]
      · simp [setKey, lookupKey, hek, heq, ih]

theorem lookupKey_setKey_self {α : Type} (m : List (String × α)) (k : String) (v : α) :
    lookupKey (setKey m k v) k = some v := by
  simp [lookupKey_setKey]

theorem setKey_setKey {α : Type} (m : List (String × α)) (k : String) (v w : α) :
    setKey (setKey m k v) k w = setKey m k w := by
  induction m with
  | nil => simp [setKey]
  | cons e rest ih =>
    by_cases hek : e.1 = k
    · simp [setKey, hek]
    · simp [setKey, hek, ih]

theorem setKey_self {α : Type} (m : List (String × α)) (k : String) (v : α)
    (h : lookupKey m k = some v) : setKey m k v = m := by
  induction m with
  | nil => simp [lookupKey] at h
  | cons e rest ih =>
    by_cases hek : e.1 = k
    · simp [lookupKey, hek] at h
      have he : e = (k, v) := by
        cases e
        simp_all
      simp [setKey, hek, he]
    · simp [lookupKey, hek] at h
      simp [setKey, hek, ih h]

theorem lookupKey_eraseKey {α : Type} (m : List (String × α)) (k q : String) :
    lookupKey (eraseKey m k) q = if q = k then none else lookupKey m q := by
  induction m with
  | nil => by_cases hqk : q = k <;> simp [eraseKey, lookupKey, hqk]
  | cons e rest ih =>
    by_cases hek : e.1 = k
    · have hdrop : eraseKey (e :: rest) k = eraseKey rest k := by
        simp [eraseKey, hek]
      by_cases hqk : q = k
      · rw [hdrop, ih]
        simp [hqk]
      · have heq : ¬ e.1 = q := fun h => hqk (h.symm.trans hek)
        rw [hdrop, ih]
        simp [lookupKey, hqk, heq]
    · have hkeep : eraseKey (e :: rest) k = e :: eraseKey rest k := by
        simp [eraseKey, hek]
      by_cases heq : e.1 = q
      · have hqk : ¬ q = k := fun h => hek (heq.trans h)
        rw [hkeep]
        simp [lookupKey, heq, hqk]
      · rw [hkeep]
        simp [lookupKey, heq, ih]

theorem mem_setKey {α : Type} (m : List (String × α)) (k : String) (v : α) (e : String × α)
    (h : e ∈ setKey m k v) : e = (k, v) ∨ e ∈ m := by
  induction m with
  | nil =>
    simp [setKey] at h
    exact Or.inl h
  | cons f rest ih =>
    by_cases hfk : f.1 = k
    · simp [setKey, hfk] at h
      rcases h with h | h
      · exact Or.inl h
      · exact Or.inr (List.mem_cons_of_mem _ h)
    · simp [setKey, hfk] at h
      rcases h with h | h
      · exact Or.inr (by simp [h])
      · rcases ih h with h1 | h1
        · exact Or.inl h1
        · exact Or.inr (List.mem_cons_of_mem _ h1)

theorem filter_self_of_forall {α : Type} (l : List α) (p : α → Bool)
    (h : ∀ x ∈ l, p x = true) : l.filter p = l :=
  List.filter_eq_self.mpr h

theorem filter_filter_self {α : Type} (l : List α) (p : α → Bool) :
    (l.filter p).filter p = l.filter p :=
  filter_self_of_forall _ _ (fun x hx => (List.mem_filter.mp hx).2)

theorem getField_some_jobj (v : JValue) (k : String) (w : JValue)
    (h : getField v k = some w) : ∃ fs, v = .jobj fs := by
  cases v <;> simp [getField] at h <;> exact ⟨_, rfl⟩

theorem stringify_jobj_ne_empty (fs : List (String × JValue)) :
    stringify (.jobj fs) ≠ "" := by
  intro h
  have hlen := congrArg String.length h
  rw [stringify] at hlen
  simp [String.length_append] at hlen
  exact absurd hlen.1.1 (by decide)

/-! ### Characterizations of the room operations -/

theorem addClient_ne_nil (clients : List Conn) (ws : Conn) : addClient clients ws ≠ [] := by
  unfold addClient
  by_cases h : ws ∈ clients
  · simp [h]
    exact List.ne_nil_of_mem h
  · simp [h]

theorem joinRoom_eq (st : RoomsMap) (roomId : String) (ws : Conn) (now : Int)
    (hid : roomId ≠ "") :
    joinRoom st roomId ws now =
      match lookupKey st roomId with
      | some room =>
        .ok (setKey st roomId { room with clients := addClient room.clients ws },
             { room with clients := addClient room.clients ws })
      | none =>
        .ok (setKey st roomId ⟨addClient [] ws, "", now⟩, ⟨addClient [] ws, "", now⟩) := by
  unfold joinRoom
  cases h : lookupKey st roomId with
  | some room =>
    simp [hid, containsKey, h]
  | none =>
    simp [hid, containsKey, h, lookupKey_setKey_self, setKey_setKey]

theorem leaveRoom_eq (st : RoomsMap) (roomId : String) (ws : Conn) (room : Room)
    (hid : roomId ≠ "") (h : lookupKey st roomId = some room) :
    leaveRoom st roomId ws =
      if room.clients.filter (fun c => !(c == ws)) = [] then eraseKey st roomId
      else setKey st roomId { room with clients := room.clients.filter (fun c => !(c == ws)) } := by
  unfold leaveRoom
  simp [hid, h]

/-! ### Registry operation traces (for the zero-member-room invariant) -/

/-- One invocation of a mutating `RoomManager` operation, with all external
inputs (identifiers, connections, timestamps) recorded. -/
inductive RegOp where
  | create : String → Int → RegOp
  | join : String → Conn → Int → RegOp
  | leave : String → Conn → RegOp
  | setCodeOp : String → String → RegOp

/-- Whether the operation is a `createRoom` call. -/
def RegOp.isCreate : RegOp → Bool
  | .create _ _ => true
  | _ => false

/-- Apply one registry operation to the rooms map (a failed `joinRoom` leaves
the map unchanged: the thrown error propagates to the caller before any
mutation). -/
def applyRegOp (st : RoomsMap) : RegOp → RoomsMap
  | .create generatedId now => (createRoom st generatedId now).2
  | .join roomId ws now =>
    match joinRoom st roomId ws now with
    | .ok (st1, _) => st1
    | .error _ => st
  | .leave roomId ws => leaveRoom st roomId ws
  | .setCodeOp roomId code => setCode st roomId code

/-- The rooms map reached by a sequence of registry operations from the
initial empty registry (`this.rooms = new Map()`). -/
def applyRegOps (ops : List RegOp) : RoomsMap :=
  ops.foldl applyRegOp []

/-- Every room present in the map has at least one member. -/
def NonEmptyRooms (st : RoomsMap) : Prop :=
  ∀ roomId room, lookupKey st roomId = some room → room.clients ≠ []

theorem nonEmptyRooms_join (st : RoomsMap) (roomId : String) (ws : Conn) (now : Int)
    (hst : NonEmptyRooms st) : NonEmptyRooms (applyRegOp st (.join roomId ws now)) := by
  by_cases hid : roomId = ""
  · simpa [applyRegOp, joinRoom, hid] using hst
  · intro q r hq
    simp only [applyRegOp, joinRoom_eq st roomId ws now hid] at hq
    cases h : lookupKey st roomId with
    | some room =>
      rw [h] at hq
      simp only [lookupKey_setKey] at hq
      by_cases hqr : q = roomId
      · rw [if_pos hqr] at hq
        cases hq
        exact addClient_ne_nil room.clients ws
      · rw [if_neg hqr] at hq
        exact hst q r hq
    | none =>
      rw [h] at hq
      simp only [lookupKey_setKey] at hq
      by_cases hqr : q = roomId
      · rw [if_pos hqr] at hq
        cases hq
        exact addClient_ne_nil [] ws
      · rw [if_neg hqr] at hq
        exact hst q r hq

theorem nonEmptyRooms_leave (st : RoomsMap) (roomId : String) (ws : Conn)
    (hst : NonEmptyRooms st) : NonEmptyRooms (applyRegOp st (.leave roomId ws)) := by
  by_cases hid : roomId = ""
  · simpa [applyRegOp, leaveRoom, hid] using hst
  · cases h : lookupKey st roomId with
    | none => simpa [applyRegOp, leaveRoom, hid, h] using hst
    | some room =>
      intro q r hq
      simp only [applyRegOp, leaveRoom_eq st roomId ws room hid h] at hq
      by_cases hempty : room.clients.filter (fun c => !(c == ws)) = []
      · rw [if_pos hempty] at hq
        rw [lookupKey_eraseKey] at hq
        by_cases hqr : q = roomId
        · simp [hqr] at hq
        · rw [if_neg hqr] at hq
          exact hst q r hq
      · rw [if_neg hempty] at hq
        rw [lookupKey_setKey] at hq
        by_cases hqr : q = roomId
        · rw [if_pos hqr] at hq
          cases hq
          exact hempty
        · rw [if_neg hqr] at hq
          exact hst q r hq

theorem nonEmptyRooms_setCode (st : RoomsMap) (roomId code : String)
    (hst : NonEmptyRooms st) : NonEmptyRooms (applyRegOp st (.setCodeOp roomId code)) := by
  by_cases hid : roomId = ""
  · simpa [applyRegOp, setCode, hid] using hst
  · cases h : lookupKey st roomId with
    | none => simpa [applyRegOp, setCode, hid, h] using hst
    | some room =>
      intro q r hq
      have hq2 : lookupKey (setKey st roomId { room with code := code }) q = some r := by
        simpa [applyRegOp, setCode, hid, h] using hq
      rw [lookupKey_setKey] at hq2
      by_cases hqr : q = roomId
      · rw [if_pos hqr] at hq2
        cases hq2
        exact hst roomId room h
      · rw [if_neg hqr] at hq2
        exact hst q r hq2

theorem nonEmptyRooms_applyRegOps (ops : List RegOp)
    (hops : ∀ o ∈ ops, o.isCreate = false) : NonEmptyRooms (applyRegOps ops) := by
  suffices hgen : ∀ st, NonEmptyRooms st → NonEmptyRooms (ops.foldl applyRegOp st) by
    exact hgen [] (fun q r hq => by simp [lookupKey] at hq)
  induction ops with
  | nil => exact fun st h => h
  | cons o rest ih =>
    intro st hst
    have hrest : ∀ o ∈ rest, o.isCreate = false := fun o ho => hops o (List.mem_cons_of_mem _ ho)
    have hstep : NonEmptyRooms (applyRegOp st o) := by
      cases o with
      | create generatedId now =>
        have := hops _ (List.mem_cons_self _ _)
        simp [RegOp.isCreate] at this
      | join roomId ws now => exact nonEmptyRooms_join st roomId ws now hst
      | leave roomId ws => exact nonEmptyRooms_leave st roomId ws hst
      | setCodeOp roomId code => exact nonEmptyRooms_setCode st roomId code hst
    have := ih hrest
    exact this (applyRegOp st o) hstep

/-! ### Connection-manager traces (for the admission-counter invariant) -/

/-- One connection-lifecycle event, as `index.js` drives the
`ConnectionManager`: an arriving connection calls `addConnection` only after
a passing `canAcceptConnection` check (otherwise it is rejected and the
counter untouched), and a departing connection calls `removeConnection`. -/
inductive CMOp where
  | connect : CMOp
  | disconnect : CMOp

/-- Apply one lifecycle event to the connection manager. -/
def applyCMOp (s : ConnectionManager) : CMOp → ConnectionManager
  | .connect => if s.canAcceptConnection then s.addConnection else s
  | .disconnect => s.removeConnection

/-- The connection manager reached by a sequence of lifecycle events from the
freshly constructed manager (`totalConnections = 0`). -/
def runCM (maxConn : Int) (ops : List CMOp) : ConnectionManager :=
  ops.foldl applyCMOp ⟨maxConn, 0⟩

theorem applyCMOp_inv (m : Int) (s : ConnectionManager) (op : CMOp)
    (hmax : s.maxTotalConnections = m) (h0 : 0 ≤ s.totalConnections)
    (h1 : s.totalConnections ≤ m) :
    (applyCMOp s op).maxTotalConnections = m ∧ 0 ≤ (applyCMOp s op).totalConnections ∧
      (applyCMOp s op).totalConnections ≤ m := by
  cases op with
  | connect =>
    by_cases hc : s.canAcceptConnection
    · have hlt : s.totalConnections < m := by
        have := of_decide_eq_true hc
        omega
      simp [applyCMOp, hc, ConnectionManager.addConnection, hmax]
      omega
    · simpa [applyCMOp, hc, hmax] using ⟨h0, h1⟩
  | disconnect =>
    by_cases hp : s.totalConnections > 0
    · simp [applyCMOp, ConnectionManager.removeConnection, hp, hmax]
      omega
    · simpa [applyCMOp, ConnectionManager.removeConnection, hp, hmax] using ⟨h0, h1⟩

theorem runCM_inv (m : Int) (ops : List CMOp) (hm : 0 ≤ m) :
    (runCM m ops).maxTotalConnections = m ∧ 0 ≤ (runCM m ops).totalConnections ∧
      (runCM m ops).totalConnections ≤ m := by
  suffices hgen : ∀ s : ConnectionManager,
      s.maxTotalConnections = m → 0 ≤ s.totalConnections → s.totalConnections ≤ m →
      (ops.foldl applyCMOp s).maxTotalConnections = m ∧
        0 ≤ (ops.foldl applyCMOp s).totalConnections ∧
        (ops.foldl applyCMOp s).totalConnections ≤ m by
    exact hgen ⟨m, 0⟩ rfl le_rfl hm
  induction ops with
  | nil => exact fun s hmax h0 h1 => ⟨hmax, h0, h1⟩
  | cons op rest ih =>
    intro s hmax h0 h1
    obtain ⟨hmax1, h01, h11⟩ := applyCMOp_inv m s op hmax h0 h1
    exact ih (applyCMOp s op) hmax1 h01 h11

/-! ### Claim C4 — startup validation -/

/-- A configuration whose rate-limit window duration is zero, whose total
connection cap is negative and whose shutdown grace period is negative (all
outside any sane range), but whose five actually-checked fields are the
defaults. -/
def cfgC4 : Config :=
  { cfgDefault with
      RATE_LIMIT_WINDOW_MS := 0, MAX_TOTAL_CONNECTIONS := -5, SHUTDOWN_TIMEOUT_MS := -1 }

/-- C4, counterexample: `validateConfig` accepts (and the process comes up
under) a configuration whose rate-limit window duration, total connection cap
and shutdown grace period are each outside any sane range, so startup
validation is not fatal for every configured bound. -/
theorem c4_validateConfig_counterexample :
    validateConfig cfgC4 = [] ∧ serverStarts cfgC4 = true ∧
      cfgC4.RATE_LIMIT_WINDOW_MS = 0 ∧ cfgC4.MAX_TOTAL_CONNECTIONS < 0 ∧
      cfgC4.SHUTDOWN_TIMEOUT_MS < 0 := by
  refine ⟨by decide, by decide, by decide, by decide, by decide⟩

/-- C4, amended: `validateConfig` throws (and the process does not come up)
exactly when one of the five bounds it actually checks — maximum message
size, maximum code size, rate-limit message count, per-room connection cap,
listen port — lies outside its documented range; the rate-limit window
duration, the total connection cap and the shutdown grace period are not
validated. -/
theorem c4_validateConfig_amended (cfg : Config) :
    (validateConfig cfg ≠ [] ↔
      ((cfg.MAX_MESSAGE_SIZE ≤ 0 ∨ cfg.MAX_MESSAGE_SIZE > 100 * 1024 * 1024) ∨
       (cfg.MAX_CODE_SIZE ≤ 0 ∨ cfg.MAX_CODE_SIZE > 50 * 1024 * 1024) ∨
       (cfg.RATE_LIMIT_MESSAGES ≤ 0 ∨ cfg.RATE_LIMIT_MESSAGES > 10000) ∨
       (cfg.MAX_CONNECTIONS_PER_ROOM ≤ 0 ∨ cfg.MAX_CONNECTIONS_PER_ROOM > 1000) ∨
       (cfg.PORT < 1 ∨ cfg.PORT > 65535))) ∧
    (serverStarts cfg = false ↔ validateConfig cfg ≠ []) := by
  constructor
  · unfold validateConfig
    split_ifs <;> simp_all
  · unfold serverStarts
    cases h : validateConfig cfg <;> simp [h]

/-! ### Claim C7 — rate limiter fixed-window contract -/

/-- C7: `RateLimiter.check` satisfies the fixed-window contract: a never-seen
identity gets a fresh record `{count = 1, resetAt = now + windowMs}` and is
allowed; a call strictly past the window end resets the record and is
allowed; otherwise a call with `count ≥ maxMessages` is rejected with the
state completely unchanged; otherwise the count is incremented and the call
allowed.  Consequently a single check preserves the bound
`count ≤ maxMessages` on every stored record (when `maxMessages ≥ 1`). -/
theorem c7_check_contract (self : RateLimiter) (ws : Conn) (now : Int) :
    (lookupKey self.clients (RateLimiter.getClientId ws) = none →
      RateLimiter.check self ws now =
        (true,
          { self with
              clients := setKey self.clients (RateLimiter.getClientId ws)
                ⟨1, now + self.windowMs⟩ })) ∧
    (∀ record, lookupKey self.clients (RateLimiter.getClientId ws) = some record →
      now > record.resetAt →
      RateLimiter.check self ws now =
        (true,
          { self with
              clients := setKey self.clients (RateLimiter.getClientId ws)
                ⟨1, now + self.windowMs⟩ })) ∧
    (∀ record, lookupKey self.clients (RateLimiter.getClientId ws) = some record →
      ¬ now > record.resetAt → record.count ≥ self.maxMessages →
      RateLimiter.check self ws now = (false, self)) ∧
    (∀ record, lookupKey self.clients (RateLimiter.getClientId ws) = some record →
      ¬ now > record.resetAt → record.count < self.maxMessages →
      RateLimiter.check self ws now =
        (true,
          { self with
              clients := setKey self.clients (RateLimiter.getClientId ws)
                ⟨record.count + 1, record.resetAt⟩ })) ∧
    (1 ≤ self.maxMessages →
      (∀ e ∈ self.clients, e.2.count ≤ self.maxMessages) →
      ∀ e ∈ (RateLimiter.check self ws now).2.clients, e.2.count ≤ self.maxMessages) := by
  refine ⟨?_, ?_, ?_, ?_, ?_⟩
  · intro h
    simp [RateLimiter.check, h]
  · intro record h hroll
    simp [RateLimiter.check, h, hroll]
  · intro record h hroll hfull
    simp [RateLimiter.check, h, hroll, hfull]
  · intro record h hroll hlt
    have : ¬ record.count ≥ self.maxMessages := not_le.mpr hlt
    simp [RateLimiter.check, h, hroll, this]
  · intro hmax hall e he
    unfold RateLimiter.check at he
    cases h : lookupKey self.clients (RateLimiter.getClientId ws) with
    | none =>
      rw [h] at he
      simp only at he
      rcases mem_setKey _ _ _ _ he with h1 | h1
      · rw [h1]
        exact hmax
      · exact hall e h1
    | some record =>
      rw [h] at he
      simp only at he
      by_cases hroll : now > record.resetAt
      · rw [if_pos hroll] at he
        simp only at he
        rcases mem_setKey _ _ _ _ he with h1 | h1
        · rw [h1]
          exact hmax
        · exact hall e h1
      · rw [if_neg hroll] at he
        by_cases hfull : record.count ≥ self.maxMessages
        · rw [if_pos hfull] at he
          exact hall e he
        · rw [if_neg hfull] at he
          simp only at he
          rcases mem_setKey _ _ _ _ he with h1 | h1
          · rw [h1]
            simp only
            omega
          · exact hall e h1

/-- A concrete limiter with one known identity, for exercising C7. -/
def rlC7 : RateLimiter := ⟨100, 60000, [("room01:1.2.3.4", ⟨3, 500⟩)]⟩

/-- A concrete open connection bound to room `room01` from address
`1.2.3.4`. -/
def wsC7 : Conn := ⟨1, "room01", "1.2.3.4", 1⟩

/-- C7, witness: the in-window increment case of the contract at a concrete
state (count 3 of 100, window ending at 500, call at 400). -/
theorem c7_check_contract_witness :
    RateLimiter.check rlC7 wsC7 400 =
      (true, ⟨100, 60000, [("room01:1.2.3.4", ⟨4, 500⟩)]⟩) :=
  (c7_check_contract rlC7 wsC7 400).2.2.2.1 ⟨3, 500⟩ (by decide) (by decide) (by decide)

/-! ### Claim C3 — behaviour exactly at the window boundary -/

/-- A concrete limiter at its message cap (2 of 2) with the window ending at
time 100. -/
def rlC3 : RateLimiter := ⟨2, 1000, [("room01:9.9.9.9", ⟨2, 100⟩)]⟩

/-- The connection whose identity is at the cap in `rlC3`. -/
def wsC3 : Conn := ⟨7, "room01", "9.9.9.9", 1⟩

/-- A concrete room map containing `room01` with `wsC3` joined. -/
def roomsC3 : RoomsMap := [("room01", ⟨[wsC3], "", 0⟩)]

/-- A raw frame of 10 bytes (its parse result is irrelevant: the rate check
fires first). -/
def dataC3 : RawData := ⟨none, 10⟩

/-- C3, counterexample: a check arriving exactly at the window boundary
(`now = resetAt = 100`) with the count at the configured maximum is NOT
treated as a rollover: it returns not-allowed, and the engine thereupon
closes the connection with 1008 "Rate limit exceeded" — so a connection
sending exactly at the maximum rate can be closed. -/
theorem c3_boundary_counterexample :
    lookupKey rlC3.clients (RateLimiter.getClientId wsC3) = some ⟨2, 100⟩ ∧
    rlC3.maxMessages = 2 ∧
    (RateLimiter.check rlC3 wsC3 100).1 = false ∧
    (handleMessage cfgDefault (fun _ => "5") roomsC3 rlC3 wsC3 "room01" dataC3 100).2.2 =
      [Effect.closed wsC3 1008 "Rate limit exceeded"] := by
  refine ⟨by decide, by decide, by decide, by decide⟩

/-- C3, amended: a rollover happens only when `now` is strictly past the
record's `resetAt`; a check arriving exactly at the boundary
(`now = resetAt`) is still inside the window, so it is allowed exactly when
the current count is below `maxMessages` — a connection that has already
spent the window's budget and sends again exactly at the boundary is
rejected (and then closed by the engine). -/
theorem c3_boundary_amended (self : RateLimiter) (ws : Conn) (record : RateRecord)
    (h : lookupKey self.clients (RateLimiter.getClientId ws) = some record) :
    (RateLimiter.check self ws record.resetAt).1 = decide (record.count < self.maxMessages) := by
  unfold RateLimiter.check
  rw [h]
  simp only [lt_irrefl, gt_iff_lt, if_false]
  by_cases hfull : record.count ≥ self.maxMessages
  · have : ¬ record.count < self.maxMessages := not_lt.mpr hfull
    simp [hfull, this]
  · have hlt : record.count < self.maxMessages := not_le.mp hfull
    simp [hfull, hlt]

/-- C3, witness for the amended theorem: a record below the cap (3 of 5) at
its boundary instant 200 is allowed. -/
theorem c3_boundary_amended_witness :
    (RateLimiter.check ⟨5, 1000, [("roomZZ:1.1.1.1", ⟨3, 200⟩)]⟩ ⟨9, "roomZZ", "1.1.1.1", 1⟩ 200).1 =
      decide ((3 : Int) < 5) :=
  c3_boundary_amended ⟨5, 1000, [("roomZZ:1.1.1.1", ⟨3, 200⟩)]⟩ ⟨9, "roomZZ", "1.1.1.1", 1⟩
    ⟨3, 200⟩ (by decide)

/-! ### Claim C8 — admission counter invariant -/

/-- C8: under the engine's discipline (increment only after a passing
`canAcceptConnection` check), the counter satisfies
`0 ≤ totalConnections ≤ maxTotalConnections` in every reachable state;
`canAcceptConnection` is true exactly when the counter is strictly below the
cap; and `removeConnection` never drives a non-negative counter below zero,
no matter how often it is called. -/
theorem c8_admission_invariant (maxConn : Int) (ops : List CMOp) (hm : 0 ≤ maxConn) :
    0 ≤ (runCM maxConn ops).totalConnections ∧
    (runCM maxConn ops).totalConnections ≤ maxConn ∧
    (∀ s : ConnectionManager,
      s.canAcceptConnection = true ↔ s.totalConnections < s.maxTotalConnections) ∧
    (∀ s : ConnectionManager, 0 ≤ s.totalConnections →
      0 ≤ s.removeConnection.totalConnections) := by
  obtain ⟨hmax, h0, h1⟩ := runCM_inv maxConn ops hm
  refine ⟨h0, h1, ?_, ?_⟩
  · intro s
    simp [ConnectionManager.canAcceptConnection]
  · intro s hs
    unfold ConnectionManager.removeConnection
    by_cases hp : s.totalConnections > 0
    · simp [hp]
      omega
    · simpa [hp] using hs

/-- A concrete lifecycle trace overdriving a cap of 2: three arrivals (the
third is rejected by the admission check) and three departures (the third
hits the floor). -/
def opsC8 : List CMOp :=
  [CMOp.connect, CMOp.connect, CMOp.connect,
   CMOp.disconnect, CMOp.disconnect, CMOp.disconnect]

/-- C8, witness: the invariant at cap 2 over the concrete overdriven trace. -/
theorem c8_admission_invariant_witness :
    0 ≤ (runCM 2 opsC8).totalConnections ∧ (runCM 2 opsC8).totalConnections ≤ 2 :=
  ⟨(c8_admission_invariant 2 opsC8 (by decide)).1,
   (c8_admission_invariant 2 opsC8 (by decide)).2.1⟩

/-! ### Claim C9 — leaveRoom is idempotent -/

/-- C9, amended: `leaveRoom` is idempotent (a second identical call leaves
the map unchanged); it is a no-op on an absent room; it is a no-op when the
connection is not a member, provided the room has at least one member (true
of every room reachable without `createRoom` — on a zero-member room the
call instead deletes the room, see the counterexample); and when the removal
empties the member set the room is deleted from the map. -/
theorem c9_leaveRoom_idempotent (st : RoomsMap) (roomId : String) (ws : Conn) :
    leaveRoom (leaveRoom st roomId ws) roomId ws = leaveRoom st roomId ws ∧
    (lookupKey st roomId = none → leaveRoom st roomId ws = st) ∧
    (∀ room, lookupKey st roomId = some room → ws ∉ room.clients → room.clients ≠ [] →
      leaveRoom st roomId ws = st) ∧
    (∀ room, roomId ≠ "" → lookupKey st roomId = some room →
      room.clients.filter (fun c => !(c == ws)) = [] →
      lookupKey (leaveRoom st roomId ws) roomId = none) := by
  refine ⟨?_, ?_, ?_, ?_⟩
  · by_cases hid : roomId = ""
    · simp [leaveRoom, hid]
    · cases h : lookupKey st roomId with
      | none => simp [leaveRoom, hid, h]
      | some room =>
        rw [leaveRoom_eq st roomId ws room hid h]
        by_cases hempty : room.clients.filter (fun c => !(c == ws)) = []
        · rw [if_pos hempty]
          have hnone : lookupKey (eraseKey st roomId) roomId = none := by
            rw [lookupKey_eraseKey]
            simp
          simp [leaveRoom, hid, hnone]
        · rw [if_neg hempty]
          have hlook : lookupKey
              (setKey st roomId { room with clients := room.clients.filter (fun c => !(c == ws)) })
              roomId =
              some { room with clients := room.clients.filter (fun c => !(c == ws)) } :=
            lookupKey_setKey_self _ _ _
          rw [leaveRoom_eq _ roomId ws _ hid hlook]
          simp only [filter_filter_self]
          rw [if_neg hempty]
          exact setKey_setKey st roomId _ _
  · intro h
    by_cases hid : roomId = "" <;> simp [leaveRoom, hid, h]
  · intro room h hmem hne
    by_cases hid : roomId = ""
    · simp [leaveRoom, hid]
    · rw [leaveRoom_eq st roomId ws room hid h]
      have hfil : room.clients.filter (fun c => !(c == ws)) = room.clients :=
        filter_self_of_forall _ _ (fun c hc => by
          simp only [bne_iff_ne, Bool.not_eq_true']
          simp only [beq_eq_false_iff_ne, ne_eq]
          intro hcw
          exact hmem (hcw ▸ hc))
      rw [hfil] at *
      rw [if_neg hne]
      exact setKey_self st roomId room h
  · intro room hid h hempty
    rw [leaveRoom_eq st roomId ws room hid h, if_pos hempty, lookupKey_eraseKey]
    simp

/-- Two concrete distinct open connections for the C9 witness. -/
def wsC9a : Conn := ⟨1, "room01", "1.1.1.1", 1⟩

/-- Second concrete connection for the C9 witness. -/
def wsC9b : Conn := ⟨2, "room01", "2.2.2.2", 1⟩

/-- A concrete map with one two-member room for the C9 witness. -/
def roomsC9 : RoomsMap := [("room01", ⟨[wsC9a, wsC9b], "x", 0⟩)]

/-- C9, witness: double-leave equals single leave on a concrete two-member
room, and leaving a concrete one-member room deletes it. -/
theorem c9_leaveRoom_idempotent_witness :
    leaveRoom (leaveRoom roomsC9 "room01" wsC9a) "room01" wsC9a =
      leaveRoom roomsC9 "room01" wsC9a ∧
    lookupKey (leaveRoom [("room02", ⟨[wsC9b], "y", 0⟩)] "room02" wsC9b) "room02" = none :=
  ⟨(c9_leaveRoom_idempotent roomsC9 "room01" wsC9a).1,
   (c9_leaveRoom_idempotent [("room02", ⟨[wsC9b], "y", 0⟩)] "room02" wsC9b).2.2.2
     ⟨[wsC9b], "y", 0⟩ (by decide) (by decide) (by decide)⟩

/-- C9, counterexample: `leaveRoom` on a handle that is not a member does NOT
always change nothing.  On a zero-member room — reachable through the
registry's own `createRoom` operation, the very state behind the C5
correction — the client-set removal is a no-op, the set is still empty, and
`leaveRoom` therefore deletes the room, observably changing the registry. -/
theorem c9_leaveRoom_counterexample :
    applyRegOps [RegOp.create "room03" 0] = [("room03", ⟨[], "", 0⟩)] ∧
    wsC9a ∉ (⟨[], "", 0⟩ : Room).clients ∧
    leaveRoom [("room03", ⟨[], "", 0⟩)] "room03" wsC9a = [] ∧
    leaveRoom [("room03", ⟨[], "", 0⟩)] "room03" wsC9a ≠ [("room03", ⟨[], "", 0⟩)] := by
  refine ⟨by decide, by decide, by decide, by decide⟩

/-! ### Claim C5 — no zero-member room persists -/

/-- C5, counterexample: `createRoom` is a registry operation, and one
`createRoom` call from the empty registry reaches a state whose room has an
empty member set and persists in the map — so not every state reachable
through the registry's operations keeps every room non-empty. -/
theorem c5_empty_room_counterexample :
    lookupKey (applyRegOps [RegOp.create "abc123" 0]) "abc123" = some ⟨[], "", 0⟩ ∧
      ¬ NonEmptyRooms (applyRegOps [RegOp.create "abc123" 0]) := by
  refine ⟨by decide, ?_⟩
  intro h
  exact h "abc123" ⟨[], "", 0⟩ (by decide) rfl

/-- C5, amended: in every state reachable through the registry operations the
relay engine actually invokes — `joinRoom`, `leaveRoom`, `setCode` (not the
unused `createRoom`) — every room present in the map has at least one member;
a `joinRoom` for an absent identifier creates a fresh room with an empty
buffer (and membership consisting of just the joiner); and a `leaveRoom` that
empties the member set deletes the room from the map. -/
theorem c5_no_empty_rooms_amended :
    (∀ ops : List RegOp, (∀ o ∈ ops, o.isCreate = false) →
      NonEmptyRooms (applyRegOps ops)) ∧
    (∀ (st : RoomsMap) (roomId : String) (ws : Conn) (now : Int),
      roomId ≠ "" → lookupKey st roomId = none →
      joinRoom st roomId ws now = .ok (setKey st roomId ⟨[ws], "", now⟩, ⟨[ws], "", now⟩)) ∧
    (∀ (st : RoomsMap) (roomId : String) (ws : Conn) (room : Room),
      roomId ≠ "" → lookupKey st roomId = some room →
      room.clients.filter (fun c => !(c == ws)) = [] →
      lookupKey (leaveRoom st roomId ws) roomId = none) := by
  refine ⟨nonEmptyRooms_applyRegOps, ?_, ?_⟩
  · intro st roomId ws now hid h
    rw [joinRoom_eq st roomId ws now hid, h]
    have : addClient [] ws = [ws] := by
      simp [addClient]
    rw [this]
  · intro st roomId ws room hid h hempty
    rw [leaveRoom_eq st roomId ws room hid h, if_pos hempty, lookupKey_eraseKey]
    simp

/-- C5, witness: a join of the concrete absent identifier `room01` creates
the fresh one-member room with empty buffer, and one engine trace
(join then leave) yields a registry with no `room01` entry. -/
theorem c5_no_empty_rooms_amended_witness :
    joinRoom [] "room01" wsC9a 5 = .ok ([("room01", ⟨[wsC9a], "", 5⟩)], ⟨[wsC9a], "", 5⟩) ∧
      NonEmptyRooms (applyRegOps [RegOp.join "room01" wsC9a 5, RegOp.leave "room01" wsC9a]) :=
  ⟨c5_no_empty_rooms_amended.2.1 [] "room01" wsC9a 5 (by decide) (by decide),
   c5_no_empty_rooms_amended.1 [RegOp.join "room01" wsC9a 5, RegOp.leave "room01" wsC9a]
     (by decide)⟩

/-! ### Claim C6 — room-id validation on connection -/

theorem getLast?_mem_list {α : Type} (l : List α) (a : α) (h : l.getLast? = some a) : a ∈ l := by
  induction l with
  | nil => simp at h
  | cons x xs ih =>
    cases xs with
    | nil =>
      simp at h
      simp [h]
    | cons y ys =>
      rw [List.getLast?_cons_cons] at h
      exact List.mem_cons_of_mem _ (ih h)

/-- A fresh server state (no rooms, no connections) with the default cap. -/
def stC6 : ServerState := ⟨[], ⟨1000, 0⟩⟩

/-- An inbound connection before any room assignment. -/
def wsC6 : Conn := ⟨1, "", "1.2.3.4", 1⟩

/-- C6, counterexample: the URL `/abcdef/` has an EMPTY final path segment,
yet the connection is not closed — `extractRoomId` takes the last non-empty
segment (`filter(Boolean)` drops empty parts), accepts `abcdef`, and the
handler creates and joins that room. -/
theorem c6_room_id_counterexample :
    (jsSplitSlash "/abcdef/").getLast? = some "" ∧
    extractRoomId cfgDefault "/abcdef/" = some "abcdef" ∧
    lookupKey (handleConnection cfgDefault stC6 wsC6 "/abcdef/" 0).1.rooms "abcdef" =
      some ⟨[{ wsC6 with roomId := "abcdef" }], "", 0⟩ := by
  refine ⟨by decide, by decide, by decide⟩

/-- C6, amended: when the URL has no non-empty path segment, or its last
non-empty path segment fails the configured length bounds or the
`[A-Za-z0-9_-]` pattern, the connection is closed with code 1008 before any
join (with reason "Invalid room ID", or "Server at capacity" when the
admission check already fails), no room is created, and the server state is
unchanged. -/
theorem c6_invalid_room_id_amended (cfg : Config) (st : ServerState) (ws : Conn)
    (url : String) (now : Int)
    (h : (match ((jsSplitSlash url).filter (fun s => !(s == ""))).getLast? with
          | none => true
          | some s => !validRoomId cfg s) = true) :
    ∃ reason, handleConnection cfg st ws url now = (st, [Effect.closed ws 1008 reason]) := by
  by_cases hacc : st.conns.canAcceptConnection
  · have hnone : extractRoomId cfg url = none := by
      unfold extractRoomId
      by_cases hurl : url = ""
      · simp [hurl]
      · rw [if_neg hurl]
        cases hlast : ((jsSplitSlash url).filter (fun s => !(s == ""))).getLast? with
        | none => simp [hlast]
        | some s =>
          rw [hlast] at h
          have hmem : s ∈ (jsSplitSlash url).filter (fun s => !(s == "")) :=
            getLast?_mem_list _ s hlast
          have hs : ¬ s = "" := by
            have := (List.mem_filter.mp hmem).2
            simpa using this
          simp only [hlast]
          simp only [Bool.not_eq_true'] at h
          simp [hs, h]
    refine ⟨"Invalid room ID", ?_⟩
    unfold handleConnection
    rw [hnone]
    simp [hacc]
  · refine ⟨"Server at capacity", ?_⟩
    unfold handleConnection
    simp [hacc]

/-- C6, witness: the too-short room id `ab` on a fresh server closes the
connection with 1008 and leaves the state unchanged. -/
theorem c6_invalid_room_id_amended_witness :
    ∃ reason, handleConnection cfgDefault stC6 wsC6 "/ab" 0 =
      (stC6, [Effect.closed wsC6 1008 reason]) :=
  c6_invalid_room_id_amended cfgDefault stC6 wsC6 "/ab" 0 (by decide)

/-! ### Claims C1, C2 — CODE_CHANGE dispatch -/

theorem validateMessage_codeChange (msg : JValue) (code : String)
    (htype : getField msg "type" = some (.jstr MESSAGE_TYPES_CODE_CHANGE))
    (hcode : payloadCode msg = some code) : validateMessage msg = true := by
  obtain ⟨fs, rfl⟩ := getField_some_jobj msg "type" _ htype
  unfold payloadCode at hcode
  cases hp : getField (.jobj fs) "payload" with
  | none =>
    rw [hp] at hcode
    simp at hcode
  | some p =>
    rw [hp] at hcode
    simp only at hcode
    have hpobj : ∃ gs, p = .jobj gs := by
      cases hc : getField p "code" with
      | none =>
        rw [hc] at hcode
        simp at hcode
      | some w => exact getField_some_jobj p "code" w hc
    obtain ⟨gs, rfl⟩ := hpobj
    unfold validateMessage
    rw [htype, hp]
    simp [truthy, isObjectType, isStringVal, MESSAGE_TYPES_CODE_CHANGE]

theorem isType_codeChange (msg : JValue)
    (htype : getField msg "type" = some (.jstr MESSAGE_TYPES_CODE_CHANGE)) :
    isType msg MESSAGE_TYPES_CODE_CHANGE = true := by
  unfold isType
  rw [htype]
  simp

theorem handleMessage_codeChange (cfg : Config) (fmtMB : Int → String) (rooms : RoomsMap)
    (rate : RateLimiter) (ws : Conn) (roomId : String) (data : RawData) (now : Int)
    (msg : JValue) (code : String)
    (hparse : data.parsed = some msg)
    (hsize : (data.size : Int) ≤ cfg.MAX_MESSAGE_SIZE)
    (hrate : (RateLimiter.check rate ws now).1 = true)
    (htype : getField msg "type" = some (.jstr MESSAGE_TYPES_CODE_CHANGE))
    (hcode : payloadCode msg = some code) :
    handleMessage cfg fmtMB rooms rate ws roomId data now =
      if (code.utf8ByteSize : Int) > cfg.MAX_CODE_SIZE then
        (rooms, (RateLimiter.check rate ws now).2, sendMessage cfg ws (errorEnvelope cfg fmtMB))
      else
        (setCode rooms roomId code, (RateLimiter.check rate ws now).2,
         broadcast (setCode rooms roomId code) roomId (some ws) (stringify msg)) := by
  unfold handleMessage
  rw [if_neg (not_lt.mpr hsize), hrate, hparse]
  simp only [Bool.not_true, Bool.false_eq_true, if_false]
  rw [validateMessage_codeChange msg code htype hcode]
  simp only [Bool.not_true, Bool.false_eq_true, if_false]
  rw [isType_codeChange msg htype, if_pos rfl, hcode]

/-- C1: a `CODE_CHANGE` from a joined sender whose `payload.code` is a string
of at most `MAX_CODE_SIZE` bytes (and which passes the message-size and rate
gates) replaces the room's stored buffer with exactly that string, and the
validated envelope's serialization is delivered to exactly the other
currently-ready members of the room, in member order — never to the
sender. -/
theorem c1_code_change_broadcast (cfg : Config) (fmtMB : Int → String) (rooms : RoomsMap)
    (rate : RateLimiter) (ws : Conn) (roomId : String) (data : RawData) (now : Int)
    (msg : JValue) (code : String) (room : Room)
    (hroom : lookupKey rooms roomId = some room)
    (hmem : ws ∈ room.clients)
    (hid : roomId ≠ "")
    (hparse : data.parsed = some msg)
    (hsize : (data.size : Int) ≤ cfg.MAX_MESSAGE_SIZE)
    (hrate : (RateLimiter.check rate ws now).1 = true)
    (htype : getField msg "type" = some (.jstr MESSAGE_TYPES_CODE_CHANGE))
    (hcode : payloadCode msg = some code)
    (hfit : (code.utf8ByteSize : Int) ≤ cfg.MAX_CODE_SIZE) :
    lookupKey (handleMessage cfg fmtMB rooms rate ws roomId data now).1 roomId =
      some { room with code := code } ∧
    (handleMessage cfg fmtMB rooms rate ws roomId data now).2.2 =
      (room.clients.filter (fun c => !(some c == some ws) && c.readyState == 1)).map
        (fun c => Effect.sent c (stringify msg)) ∧
    (∀ s, Effect.sent ws s ∉ (handleMessage cfg fmtMB rooms rate ws roomId data now).2.2) := by
  have hmain :=
    handleMessage_codeChange cfg fmtMB rooms rate ws roomId data now msg code
      hparse hsize hrate htype hcode
  rw [if_neg (not_lt.mpr hfit)] at hmain
  have hset : setCode rooms roomId code = setKey rooms roomId { room with code := code } := by
    unfold setCode
    rw [if_neg hid, hroom]
  have hlook : lookupKey (setKey rooms roomId { room with code := code }) roomId =
      some { room with code := code } := lookupKey_setKey_self _ _ _
  obtain ⟨fs, hfs⟩ := getField_some_jobj msg "type" _ htype
  have hne : ¬ stringify msg = "" := by
    rw [hfs]
    exact stringify_jobj_ne_empty fs
  have hbc : broadcast (setKey rooms roomId { room with code := code }) roomId (some ws)
      (stringify msg) =
      (room.clients.filter (fun c => !(some c == some ws) && c.readyState == 1)).map
        (fun c => Effect.sent c (stringify msg)) := by
    unfold broadcast
    rw [if_neg hid, if_neg hne, hlook]
  refine ⟨?_, ?_, ?_⟩
  · rw [hmain]
    simp only [hset]
    exact hlook
  · rw [hmain]
    simp only [hset]
    exact hbc
  · intro s hs
    rw [hmain] at hs
    simp only [hset] at hs
    rw [hbc] at hs
    simp only [List.mem_map] at hs
    obtain ⟨c, hc, heq⟩ := hs
    have hfilt := (List.mem_filter.mp hc).2
    have hcw : c = ws := by
      injection heq with h1 h2
    rw [hcw] at hfilt
    simp at hfilt

/-- Float formatting stub used by concrete examples (the default
`MAX_CODE_SIZE` prints as `5`). -/
def fmtMB5 : Int → String := fun _ => "5"

/-- Sender connection of the C1 witness. -/
def wsC1a : Conn := ⟨1, "room01", "1.1.1.1", 1⟩

/-- An open fellow member for the C1 witness. -/
def wsC1b : Conn := ⟨2, "room01", "2.2.2.2", 1⟩

/-- A non-ready (closed) fellow member for the C1 witness. -/
def wsC1c : Conn := ⟨3, "room01", "3.3.3.3", 3⟩

/-- Concrete room map for the C1 witness: one room, three members. -/
def roomsC1 : RoomsMap := [("room01", ⟨[wsC1a, wsC1b, wsC1c], "old", 0⟩)]

/-- A freshly constructed rate limiter at the default settings. -/
def rlFresh : RateLimiter := ⟨100, 60000, []⟩

/-- A concrete valid `CODE_CHANGE` envelope carrying code `x=1`. -/
def msgC1 : JValue :=
  .jobj [("type", .jstr "CODE_CHANGE"), ("payload", .jobj [("code", .jstr "x=1")])]

/-- The raw frame carrying `msgC1` (60 bytes). -/
def dataC1 : RawData := ⟨some msgC1, 60⟩

/-- C1, witness: on the concrete three-member room, the update replaces the
buffer with `x=1` and is delivered exactly to the other ready member — not to
the sender and not to the closed member. -/
theorem c1_code_change_broadcast_witness :
    lookupKey (handleMessage cfgDefault fmtMB5 roomsC1 rlFresh wsC1a "room01" dataC1 0).1
        "room01" = some ⟨[wsC1a, wsC1b, wsC1c], "x=1", 0⟩ ∧
    (handleMessage cfgDefault fmtMB5 roomsC1 rlFresh wsC1a "room01" dataC1 0).2.2 =
      [Effect.sent wsC1b (stringify msgC1)] := by
  have h :=
    c1_code_change_broadcast cfgDefault fmtMB5 roomsC1 rlFresh wsC1a "room01" dataC1 0
      msgC1 "x=1" ⟨[wsC1a, wsC1b, wsC1c], "old", 0⟩
      (by decide) (by decide) (by decide) rfl (by decide) (by decide) rfl rfl (by decide)
  refine ⟨h.1, ?_⟩
  rw [h.2.1]
  decide

/-- C2: when a joined sender's `CODE_CHANGE` carries a string strictly larger
than `MAX_CODE_SIZE` (and passes the message-size and rate gates), the rooms
map — in particular the room's stored buffer — is left unchanged, nothing is
broadcast, the sender is not closed, and, provided the sender's socket is
still open and the serialized `ERROR` envelope fits within
`MAX_MESSAGE_SIZE`, exactly one `ERROR` reply is emitted, to the sender
only. -/
theorem c2_oversized_code_error (cfg : Config) (fmtMB : Int → String) (rooms : RoomsMap)
    (rate : RateLimiter) (ws : Conn) (roomId : String) (data : RawData) (now : Int)
    (msg : JValue) (code : String) (room : Room)
    (hroom : lookupKey rooms roomId = some room)
    (hmem : ws ∈ room.clients)
    (hparse : data.parsed = some msg)
    (hsize : (data.size : Int) ≤ cfg.MAX_MESSAGE_SIZE)
    (hrate : (RateLimiter.check rate ws now).1 = true)
    (htype : getField msg "type" = some (.jstr MESSAGE_TYPES_CODE_CHANGE))
    (hcode : payloadCode msg = some code)
    (hbig : (code.utf8ByteSize : Int) > cfg.MAX_CODE_SIZE)
    (hready : ws.readyState = 1)
    (herrfit : ((stringify (errorEnvelope cfg fmtMB)).utf8ByteSize : Int) ≤ cfg.MAX_MESSAGE_SIZE) :
    handleMessage cfg fmtMB rooms rate ws roomId data now =
      (rooms, (RateLimiter.check rate ws now).2,
       [Effect.sent ws (stringify (errorEnvelope cfg fmtMB))]) := by
  have hmain :=
    handleMessage_codeChange cfg fmtMB rooms rate ws roomId data now msg code
      hparse hsize hrate htype hcode
  rw [if_pos hbig] at hmain
  rw [hmain]
  simp [sendMessage, hready, not_lt.mpr herrfit]

/-- A validated configuration with a small enough message bound to exercise
the oversized-code branch on short strings. -/
def cfgC2 : Config := { cfgDefault with MAX_MESSAGE_SIZE := 100, MAX_CODE_SIZE := 4 }

/-- A joined sender whose socket is already CLOSING (`readyState = 2`). -/
def wsC2x : Conn := ⟨9, "room02", "2.2.2.2", 2⟩

/-- Concrete room map for the C2 counterexample. -/
def roomsC2 : RoomsMap := [("room02", ⟨[wsC2x], "keep", 0⟩)]

/-- A `CODE_CHANGE` envelope whose code (6 bytes) exceeds `cfgC2`'s 4-byte
code bound. -/
def msgC2 : JValue :=
  .jobj [("type", .jstr "CODE_CHANGE"), ("payload", .jobj [("code", .jstr "abcdef")])]

/-- The raw frame carrying `msgC2` (50 bytes, within `cfgC2`'s message
bound). -/
def dataC2 : RawData := ⟨some msgC2, 50⟩

/-- Float formatting stub for `cfgC2` examples. -/
def fmtMB0 : Int → String := fun _ => "0"

/-- C2, counterexample: a joined sender whose socket is no longer open
(readyState 2) sends an oversized `CODE_CHANGE`; the buffer stays unchanged
and nothing is broadcast, but NO `ERROR` reply is emitted at all
(`sendMessage` drops it), refuting "exactly one ERROR reply is sent to the
sender". -/
theorem c2_oversized_code_counterexample :
    ("abcdef".utf8ByteSize : Int) > cfgC2.MAX_CODE_SIZE ∧
    wsC2x ∈ (⟨[wsC2x], "keep", 0⟩ : Room).clients ∧
    handleMessage cfgC2 fmtMB0 roomsC2 rlFresh wsC2x "room02" dataC2 0 =
      (roomsC2, (RateLimiter.check rlFresh wsC2x 0).2, []) := by
  refine ⟨by decide, by decide, by decide⟩

/-- An open joined sender for the C2 witness. -/
def wsC2w : Conn := ⟨5, "room02", "3.3.3.3", 1⟩

/-- Concrete room map for the C2 witness. -/
def roomsC2w : RoomsMap := [("room02", ⟨[wsC2w], "keep", 0⟩)]

/-- Float formatting stub for the C2 witness. -/
def fmtMBx : Int → String := fun _ => "x"

/-- C2, witness for the amended theorem: an open sender of an oversized
`CODE_CHANGE` gets exactly one `ERROR` reply, with the buffer unchanged and
nothing broadcast. -/
theorem c2_oversized_code_error_witness :
    handleMessage cfgC2 fmtMBx roomsC2w rlFresh wsC2w "room02" dataC2 0 =
      (roomsC2w, (RateLimiter.check rlFresh wsC2w 0).2,
       [Effect.sent wsC2w (stringify (errorEnvelope cfgC2 fmtMBx))]) :=
  c2_oversized_code_error cfgC2 fmtMBx roomsC2w rlFresh wsC2w "room02" dataC2 0 msgC2 "abcdef"
    ⟨[wsC2w], "keep", 0⟩ (by decide) (by decide) rfl (by decide) (by decide) rfl rfl
    (by decide) (by decide) (by decide)

/-! ### Claim C10 — outbound message-size cap -/

/-- A validated configuration whose code bound exceeds its message bound. -/
def cfgC10 : Config := { cfgDefault with MAX_MESSAGE_SIZE := 100, MAX_CODE_SIZE := 1000000 }

/-- C10: `sendMessage` never transmits a message whose serialization exceeds
`MAX_MESSAGE_SIZE` — it emits nothing at all (no send, no error reply, no
close); in particular a `SYNC_CODE` envelope whose serialization exceeds the
bound is never delivered; and `validateConfig` does not require
`MAX_CODE_SIZE < MAX_MESSAGE_SIZE` (witness configuration `cfgC10`). -/
theorem c10_sendMessage_drops_oversized (cfg : Config) (ws : Conn) (m : JValue)
    (h : ((stringify m).utf8ByteSize : Int) > cfg.MAX_MESSAGE_SIZE) :
    sendMessage cfg ws m = [] ∧
    (∀ code : String,
      ((stringify (syncCodeEnvelope code)).utf8ByteSize : Int) > cfg.MAX_MESSAGE_SIZE →
      sendMessage cfg ws (syncCodeEnvelope code) = []) ∧
    validateConfig cfgC10 = [] ∧ cfgC10.MAX_CODE_SIZE > cfgC10.MAX_MESSAGE_SIZE := by
  refine ⟨?_, ?_, by decide, by decide⟩
  · unfold sendMessage
    by_cases hr : ws.readyState = 1
    · simp [hr, h]
    · simp [hr]
  · intro code hc
    unfold sendMessage
    by_cases hr : ws.readyState = 1
    · simp [hr, hc]
    · simp [hr]

/-- A validated configuration with a 5-byte message bound. -/
def cfgTiny : Config := { cfgDefault with MAX_MESSAGE_SIZE := 5 }

/-- C10, witness: a 12-byte serialization is silently dropped under the
5-byte message bound. -/
theorem c10_sendMessage_drops_oversized_witness :
    sendMessage cfgTiny wsC9a (.jstr "abcdefghij") = [] :=
  (c10_sendMessage_drops_oversized cfgTiny wsC9a (.jstr "abcdefghij") (by decide)).1
